import Mathlib

/-
Shallow embedding of github.com/AdamSLevy/sqlitechangeset (changeset.go,
latest revision: ChangesetIterToSQL and its helpers).  The Go code walks a
decoded changeset iterator, builds one SQL statement per operation, groups
the statements by table (first-seen order) and, per table, by operation
kind (INSERT, UPDATE, DELETE), and joins the blocks with blank lines.

Modelling choices:
  * a decoded operation (the state of `sqlite.ChangesetIter` at one row) is
    an `Op` record: table name, numeric op kind, per-column old/new values
    (`Option Value`, `none` = the iterator returns a nil value, i.e.
    `Value.IsNil()` is true), per-column conflict values and the primary
    key mask from `iter.PK()`;
  * the schema collaborator (`PRAGMA TABLE_INFO`, run through the live
    connection) is a function `Schema := String -> Except Unit (List String)`;
    a lookup failure (unknown table / failed query) is `Except.error ()`;
  * Go strings are Lean `String`s; `strings.TrimSuffix`, `strings.ReplaceAll`
    and the fmt verbs used by the source (%q on identifiers, %X on bytes,
    %v on int64) are embedded below;
  * the two `panic` calls (unsupported op kind / value type) are modelled
    as `Except.error`: `BuildErr.unsupportedOperationKind`.  The value-type
    panic is unreachable here because `Value` is a closed union of the five
    sqlite storage classes.
-/

namespace Sqlc

/-- Session/changeset operation codes, as defined by sqlite3.h and used by
the crawshaw.io/sqlite binding (`sqlite.SQLITE_INSERT` etc.). -/
def SQLITE_DELETE : Nat := 9

/-- sqlite3.h operation code for INSERT. -/
def SQLITE_INSERT : Nat := 18

/-- sqlite3.h operation code for UPDATE. -/
def SQLITE_UPDATE : Nat := 23

/-- One sqlite value (`sqlite.Value`): a tagged union over the five sqlite
storage classes.  A blob is its list of bytes (each < 256 for well-formed
input).  `float` carries a Lean `Float`; no claim exercises float
formatting. -/
inductive Value where
  | integer (i : Int)
  | float (f : Float)
  | text (s : String)
  | blob (b : List Nat)
  | null
deriving Inhabited

/-- Go `fmt.Sprintf("%v", i)` for an int64: decimal text with a leading
minus sign for negatives; `toString` on `Int` produces the same text. -/
def goIntFormat (i : Int) : String := toString i

/-- Go `fmt.Sprintf("%v", f)` for a float64.  Go prints the shortest
round-trippable decimal; we reuse Lean's formatter as a stand-in, which no
claim exercises. -/
def goFloatFormat (f : Float) : String := toString f

/-- One uppercase hexadecimal digit, for `%X`. -/
def hexDigitU (d : Nat) : Char :=
  if d < 10 then Char.ofNat (48 + d) else Char.ofNat (55 + d)

/-- Go `fmt.Sprintf("%X", b)` for a byte slice: each byte as exactly two
uppercase hex digits, concatenated. -/
def hexUpper (b : List Nat) : String :=
  ⟨b.flatMap (fun x => [hexDigitU (x / 16 % 16), hexDigitU (x % 16)])⟩

/-- UTF-8 encoding of one character, as Go's `[]byte(string)` produces it
(used by `val.Blob()` on a TEXT value). -/
def utf8Bytes (c : Char) : List Nat :=
  let n := c.toNat
  if n < 0x80 then [n]
  else if n < 0x800 then [0xC0 + n / 64, 0x80 + n % 64]
  else if n < 0x10000 then [0xE0 + n / 4096, 0x80 + n / 64 % 64, 0x80 + n % 64]
  else [0xF0 + n / 262144, 0x80 + n / 4096 % 64, 0x80 + n / 64 % 64, 0x80 + n % 64]

/-- Go `val.Blob()` on a TEXT value: the UTF-8 bytes of the text. -/
def textBytes (s : String) : List Nat := s.data.flatMap utf8Bytes

/-- Core of Go `strings.ReplaceAll` for a nonempty pattern: scan left to
right, replacing each (non-overlapping) occurrence of `pat` by `rep`.
`fuel` bounds the recursion so the definition is structural (and hence
kernel-computable); every occurrence consumes at least one character, so
`fuel = l.length` is always enough. -/
def replaceAllList (pat rep : List Char) : Nat → List Char → List Char
  | _, [] => []
  | 0, l => l
  | fuel + 1, c :: rest =>
    if pat.isPrefixOf (c :: rest) then
      rep ++ replaceAllList pat rep fuel ((c :: rest).drop pat.length)
    else
      c :: replaceAllList pat rep fuel rest

/-- Go `strings.ReplaceAll(s, old, new)`.  The source only calls it with
the nonempty pattern `"'"`; for an empty pattern Go interleaves `new`
between runes, a case we leave as the identity since it is never reached. -/
def goReplaceAll (s pat rep : String) : String :=
  if pat.data = [] then s else ⟨replaceAllList pat.data rep.data s.data.length s.data⟩

/-- Go `strings.TrimSuffix(s, suffix)`: drop `suffix` from the end of `s`
when present, otherwise return `s` unchanged. -/
def goTrimSuffix (s suffix : String) : String :=
  if suffix.data.isSuffixOf s.data then ⟨s.data.take (s.data.length - suffix.data.length)⟩
  else s

/-- One character of Go `%q` (strconv.Quote) output: quote and backslash
are backslash-escaped, printable ASCII is literal, the named control
escapes follow, other control bytes get a `\xNN` escape.  Non-ASCII runes
are emitted literally (Go checks unicode.IsPrint; all identifiers reached
by the claims are ASCII). -/
def goQuoteChar (c : Char) : List Char :=
  if c = '\"' then ['\\', '\"']
  else if c = '\\' then ['\\', '\\']
  else if 0x20 ≤ c.toNat ∧ c.toNat < 0x7F then [c]
  else if c = Char.ofNat 7 then ['\\', 'a']
  else if c = Char.ofNat 8 then ['\\', 'b']
  else if c = Char.ofNat 12 then ['\\', 'f']
  else if c = '\n' then ['\\', 'n']
  else if c = '\r' then ['\\', 'r']
  else if c = '\t' then ['\\', 't']
  else if c = Char.ofNat 11 then ['\\', 'v']
  else if c.toNat < 0x80 then
    ['\\', 'x', hexDigitU (c.toNat / 16 % 16) |>.toLower, hexDigitU (c.toNat % 16) |>.toLower]
  else [c]

/-- Go `fmt.Sprintf("%q", s)`: the identifier-quoting used for table and
column names (`_COLUMNF = %q`, and `%q` inside the statement formats). -/
def goQuote (s : String) : String :=
  ⟨'\"' :: s.data.flatMap goQuoteChar ++ ['\"']⟩

/-- The compilation-wide blob policy: the Go package-level variable
`AlwaysUseBlob`, which forces TEXT values to be hex-encoded as blobs. -/
abbrev BlobPolicy := Bool

/-- Go `valueString(val)`: the SQL literal for one value.  INTEGER and
FLOAT print bare, TEXT becomes a single-quoted literal with embedded
single quotes doubled (unless `AlwaysUseBlob`, which falls through to the
BLOB case on the text's bytes), BLOB becomes `X'<uppercase hex>'`, NULL
becomes `NULL`. -/
def valueString (alwaysUseBlob : BlobPolicy) (val : Value) : String :=
  match val with
  | .integer i => goIntFormat i
  | .float f => goFloatFormat f
  | .text s =>
    if !alwaysUseBlob then "'" ++ goReplaceAll s "'" "''" ++ "'"
    else "X'" ++ hexUpper (textBytes s) ++ "'"
  | .blob b => "X'" ++ hexUpper b ++ "'"
  | .null => "NULL"

/-- One decoded change record: the state of `sqlite.ChangesetIter` at one
row.  `old`/`new` hold `none` where the iterator returns a nil value
(`Value.IsNil()`), `conflictv` the per-column conflict values (meaningful
only under conflict iteration), `pk` the primary-key mask from
`iter.PK()`. -/
structure Op where
  tbl : String
  kind : Nat
  old : List (Option Value)
  new : List (Option Value)
  conflictv : List Value
  pk : List Bool

/-- `iter.New(i)`: nil (`none`) when the record carries no new value for
column `i`. -/
def Op.newAt (op : Op) (i : Nat) : Option Value := op.new.getD i none

/-- `iter.Old(i)`: nil (`none`) when the record carries no old value for
column `i`. -/
def Op.oldAt (op : Op) (i : Nat) : Option Value := op.old.getD i none

/-- `iter.Conflict(i)`.  Only called by the source under conflict
iteration, where a value is available for every column it asks for. -/
def Op.confAt (op : Op) (i : Nat) : Value := op.conflictv.getD i .null

/-- `pk[i]` on the mask returned by `iter.PK()`. -/
def Op.pkAt (op : Op) (i : Nat) : Bool := op.pk.getD i false

/-- The SQL literal for a possibly-nil old value.  A (non-patchset)
changeset records old values for every column of an UPDATE/DELETE, so the
source passes them to `valueString` without a nil check; the `none` branch
here is outside the code's contract (theorems that depend on old values
assume presence). -/
def valueStringOpt (ab : BlobPolicy) (v : Option Value) : String :=
  match v with
  | some v => valueString ab v
  | none => "NULL"

/-- Left-to-right accumulation of `item ++ ", "` over the columns selected
by `f` — the shape of every `x += fmt.Sprintf(...) + _COMMA` loop in the
source.  `i` is the index of the first name. -/
def accumSel (f : Nat → String → Option String) : Nat → List String → String
  | _, [] => ""
  | i, name :: rest =>
    match f i name with
    | none => accumSel f (i + 1) rest
    | some s => s ++ ", " ++ accumSel f (i + 1) rest

/-- The list of items `accumSel` concatenates, in the same order. -/
def selectSel (f : Nat → String → Option String) : Nat → List String → List String
  | _, [] => []
  | i, name :: rest =>
    match f i name with
    | none => selectSel f (i + 1) rest
    | some s => s :: selectSel f (i + 1) rest

/-- A comma-separated list, the form the source's accumulate-then-trim
idiom produces. -/
def commaSep : List String → String
  | [] => ""
  | [s] => s
  | s :: rest => s ++ ", " ++ commaSep rest

/-- Insert column-list selector (`cols` in `buildInsert`): a column is
included exactly when `iter.New(i)` is non-nil. -/
def insColSel (op : Op) (i : Nat) (name : String) : Option String :=
  (op.newAt i).map (fun _ => goQuote name)

/-- Insert value-list selector (`vals` in `buildInsert`). -/
def insValSel (ab : BlobPolicy) (op : Op) (i : Nat) (_name : String) : Option String :=
  (op.newAt i).map (valueString ab)

/-- Insert conflict-comment selector (`conf` in `buildInsert`). -/
def insConfSel (ab : BlobPolicy) (op : Op) (i : Nat) (_name : String) : Option String :=
  (op.newAt i).map (fun _ => valueString ab (op.confAt i))

/-- Go `buildInsert(iter, tbl, names, conflict)`: one INSERT statement.
Columns whose new value is nil are skipped from both lists; with
`conflict` set, a diagnostic comment lists the conflict values of the
included columns. -/
def buildInsert (ab : BlobPolicy) (op : Op) (tbl : String) (names : List String)
    (conflict : Bool) : String :=
  let cols := goTrimSuffix (accumSel (insColSel op) 0 names) ", "
  let vals := goTrimSuffix (accumSel (insValSel ab op) 0 names) ", "
  let conf :=
    if conflict then
      " /* conflict: (" ++ goTrimSuffix (accumSel (insConfSel ab op) 0 names) ", " ++ ") */"
    else ""
  "INSERT INTO " ++ goQuote tbl ++ " (" ++ cols ++ ") VALUES (" ++ vals ++ ")" ++ conf ++ ";\n"

/-- Update/delete WHERE column selector (`pkCols`): the primary-key
columns, in column order. -/
def pkColSel (op : Op) (i : Nat) (name : String) : Option String :=
  if op.pkAt i then some (goQuote name) else none

/-- Update/delete WHERE value selector (`pkVals`): the old values of the
primary-key columns. -/
def pkValSel (ab : BlobPolicy) (op : Op) (i : Nat) (_name : String) : Option String :=
  if op.pkAt i then some (valueStringOpt ab (op.oldAt i)) else none

/-- Update SET column selector (`setCols`): non-key columns whose new
value is non-nil. -/
def updSetColSel (op : Op) (i : Nat) (name : String) : Option String :=
  if op.pkAt i then none else (op.newAt i).map (fun _ => goQuote name)

/-- Update SET value selector (`setVals`). -/
def updSetValSel (ab : BlobPolicy) (op : Op) (i : Nat) (_name : String) : Option String :=
  if op.pkAt i then none else (op.newAt i).map (valueString ab)

/-- Update old-value comment selector (`oldVals`): the prior values of the
modified data columns. -/
def updOldValSel (ab : BlobPolicy) (op : Op) (i : Nat) (_name : String) : Option String :=
  if op.pkAt i then none
  else (op.newAt i).map (fun _ => valueStringOpt ab (op.oldAt i))

/-- Update conflict-comment selector (`conf`). -/
def updConfSel (ab : BlobPolicy) (op : Op) (i : Nat) (_name : String) : Option String :=
  if op.pkAt i then none
  else (op.newAt i).map (fun _ => valueString ab (op.confAt i))

/-- Go `buildUpdate(iter, tbl, names, conflict)`: one UPDATE statement.
Key columns drive the WHERE clause with their old values; non-key columns
with a non-nil new value form the SET lists, their old (and, with
`conflict`, conflict) values go into a diagnostic comment. -/
def buildUpdate (ab : BlobPolicy) (op : Op) (tbl : String) (names : List String)
    (conflict : Bool) : String :=
  let setCols := goTrimSuffix (accumSel (updSetColSel op) 0 names) ", "
  let setVals := goTrimSuffix (accumSel (updSetValSel ab op) 0 names) ", "
  let oldVals := goTrimSuffix (accumSel (updOldValSel ab op) 0 names) ", "
  let pkCols := goTrimSuffix (accumSel (pkColSel op) 0 names) ", "
  let pkVals := goTrimSuffix (accumSel (pkValSel ab op) 0 names) ", "
  let conf :=
    if conflict then
      "conflict: (" ++ goTrimSuffix (accumSel (updConfSel ab op) 0 names) ", " ++ ") "
    else ""
  "UPDATE " ++ goQuote tbl ++ " SET (" ++ setCols ++ ") = (" ++ setVals ++ ") WHERE (" ++
    pkCols ++ ") = (" ++ pkVals ++ ") /* old: (" ++ oldVals ++ ") " ++ conf ++ "*/;\n"

/-- Delete old-column comment selector (`oldCols`): every non-key
column. -/
def delOldColSel (op : Op) (i : Nat) (name : String) : Option String :=
  if op.pkAt i then none else some (goQuote name)

/-- Delete old-value comment selector (`oldVals`). -/
def delOldValSel (ab : BlobPolicy) (op : Op) (i : Nat) (_name : String) : Option String :=
  if op.pkAt i then none else some (valueStringOpt ab (op.oldAt i))

/-- Delete conflict-comment selector (`conf`). -/
def delConfSel (ab : BlobPolicy) (op : Op) (i : Nat) (_name : String) : Option String :=
  if op.pkAt i then none else some (valueString ab (op.confAt i))

/-- Go `buildDelete(iter, tbl, names, conflict)`: one DELETE statement.
Key columns drive the WHERE clause with their old values; non-key columns
and their old (and conflict) values go into a diagnostic comment. -/
def buildDelete (ab : BlobPolicy) (op : Op) (tbl : String) (names : List String)
    (conflict : Bool) : String :=
  let pkCols := goTrimSuffix (accumSel (pkColSel op) 0 names) ", "
  let pkVals := goTrimSuffix (accumSel (pkValSel ab op) 0 names) ", "
  let oldCols := goTrimSuffix (accumSel (delOldColSel op) 0 names) ", "
  let oldVals := goTrimSuffix (accumSel (delOldValSel ab op) 0 names) ", "
  let conf :=
    if conflict then
      "conflict: (" ++ goTrimSuffix (accumSel (delConfSel ab op) 0 names) ", " ++ ") "
    else ""
  "DELETE FROM " ++ goQuote tbl ++ " WHERE (" ++ pkCols ++ ") = (" ++ pkVals ++
    ") /* (" ++ oldCols ++ ") = (" ++ oldVals ++ ") " ++ conf ++ "*/;\n"

/-- The schema collaborator of §6: `PRAGMA TABLE_INFO` through the live
connection.  An unknown table or a failed query is `Except.error ()`, the
condition the source surfaces as its schema-lookup error. -/
abbrev Schema := String → Except Unit (List String)

/-- The per-run column-name cache `_Conn.ColumnNames` (a Go map, modelled
as an association list keyed by table name). -/
abbrev Cache := List (String × List String)

/-- Go map lookup `conn.ColumnNames[tbl]`. -/
def lookupCache : Cache → String → Option (List String)
  | [], _ => none
  | (t, ns) :: rest, tbl => if t = tbl then some ns else lookupCache rest tbl

/-- The error results of `BuildSQL` and its helpers: a failed schema
lookup, or the `panic` on an op kind outside INSERT/UPDATE/DELETE. -/
inductive BuildErr where
  | schemaLookupError
  | unsupportedOperationKind
deriving DecidableEq

/-- Go `(conn _Conn) GetColNames(tbl)`: return the cached column list for
`tbl` when present; otherwise query the schema collaborator, store the
result in the cache and return it, propagating a query failure. -/
def GetColNames (schema : Schema) (cache : Cache) (tbl : String) :
    Except BuildErr (List String × Cache) :=
  match lookupCache cache tbl with
  | some colNames => .ok (colNames, cache)
  | none =>
    match schema tbl with
    | .error _ => .error .schemaLookupError
    | .ok colNames => .ok (colNames, cache ++ [(tbl, colNames)])

/-- Go `(conn _Conn) BuildSQL(iter, tbl, op, conflict)`: resolve the
table's column names, then dispatch on the op kind; a kind outside
INSERT/UPDATE/DELETE panics (`Except.error .unsupportedOperationKind`). -/
def BuildSQL (ab : BlobPolicy) (schema : Schema) (cache : Cache) (op : Op)
    (conflict : Bool) : Except BuildErr (String × Cache) :=
  match GetColNames schema cache op.tbl with
  | .error e => .error e
  | .ok (names, cache') =>
    if op.kind = SQLITE_INSERT then .ok (buildInsert ab op op.tbl names conflict, cache')
    else if op.kind = SQLITE_UPDATE then .ok (buildUpdate ab op op.tbl names conflict, cache')
    else if op.kind = SQLITE_DELETE then .ok (buildDelete ab op op.tbl names conflict, cache')
    else .error .unsupportedOperationKind

/-- The per-table statement buckets `make([][]string, 3)`: insert, update
and delete lines, in the order they were appended. -/
structure Buckets where
  ins : List String
  upd : List String
  del : List String

/-- The empty bucket triple. -/
def Buckets.empty : Buckets := ⟨[], [], []⟩

/-- The Go map `opIndex` (`SQLITE_INSERT: 0, SQLITE_UPDATE: 1,
SQLITE_DELETE: 2`); a missing key yields the zero value 0, as in Go. -/
def opIndexOf (kind : Nat) : Nat :=
  if kind = SQLITE_INSERT then 0
  else if kind = SQLITE_UPDATE then 1
  else if kind = SQLITE_DELETE then 2
  else 0

/-- `tableOps[tblID][opID] = append(tableOps[tblID][opID], sqlLine)`. -/
def Buckets.add (b : Buckets) (opID : Nat) (line : String) : Buckets :=
  if opID = 0 then ⟨b.ins ++ [line], b.upd, b.del⟩
  else if opID = 1 then ⟨b.ins, b.upd ++ [line], b.del⟩
  else ⟨b.ins, b.upd, b.del ++ [line]⟩

/-- The aggregator's table list: `tableIDs`/`tableOps` as one association
list in first-seen order.  Adding a line walks to the table's entry or
appends a fresh one at the end, then appends the line to the bucket
selected by `opIndexOf`. -/
def tableOpsAdd : List (String × Buckets) → String → Nat → String → List (String × Buckets)
  | [], tbl, opID, line => [(tbl, Buckets.empty.add opID line)]
  | (t, b) :: rest, tbl, opID, line =>
    if t = tbl then (t, b.add opID line) :: rest
    else (t, b) :: tableOpsAdd rest tbl opID line

/-- The iteration phase of `ChangesetIterToSQL`: for each operation in
stream order, build its statement (threading the column-name cache) and
append it to its `(table, kind)` bucket; the first error aborts. -/
def compileLoop (ab : BlobPolicy) (schema : Schema) (conflict : Bool) :
    Cache → List (String × Buckets) → List Op → Except BuildErr (List (String × Buckets))
  | _, tops, [] => .ok tops
  | cache, tops, op :: rest =>
    match BuildSQL ab schema cache op conflict with
    | .error e => .error e
    | .ok (line, cache') =>
      compileLoop ab schema conflict cache' (tableOpsAdd tops op.tbl (opIndexOf op.kind) line) rest

/-- The output phase's per-table text: all insert lines, then all update
lines, then all delete lines (each line already ends in a newline). -/
def Buckets.render (b : Buckets) : String :=
  String.join b.ins ++ String.join b.upd ++ String.join b.del

/-- The output phase of `ChangesetIterToSQL`: each table's block followed
by the `sql += "\n"` separator. -/
def renderTableOps (tops : List (String × Buckets)) : String :=
  String.join (tops.map (fun p => p.2.render ++ "\n"))

/-- Go `ChangesetIterToSQL(conn, iter, conflict)`: run the iteration
phase from an empty cache and empty table list, render the buckets and
trim one trailing newline. -/
def ChangesetIterToSQL (ab : BlobPolicy) (schema : Schema) (ops : List Op)
    (conflict : Bool) : Except BuildErr String :=
  match compileLoop ab schema conflict [] [] ops with
  | .error e => .error e
  | .ok tops => .ok (goTrimSuffix (renderTableOps tops) "\n")

/-- Go `ToSQL(conn, changeset)`: iterate a whole changeset without
conflict values. -/
def ToSQL (ab : BlobPolicy) (schema : Schema) (ops : List Op) : Except BuildErr String :=
  ChangesetIterToSQL ab schema ops false

/-- One step of first-seen table collection: append a table name unless
it is already present. -/
def seenStep (acc : List String) (op : Op) : List String :=
  if acc.contains op.tbl then acc else acc ++ [op.tbl]

/-- Modelled from the spec (§4.4, for comparison with the source): the
tables of a stream in first-seen order. -/
def firstSeenTables (ops : List Op) : List String :=
  ops.foldl seenStep []

/-- Modelled from the spec (§4.4): the column list a compilation run uses
for a table — the schema collaborator's answer (every theorem comparing
against this assumes the lookups succeed). -/
def colsOf (schema : Schema) (t : String) : List String :=
  match schema t with
  | .ok ns => ns
  | .error _ => []

/-- Modelled from the spec (§4.4): the statement the builder produces for
one operation, with the column names the schema collaborator reports. -/
def lineOf (ab : BlobPolicy) (schema : Schema) (conflict : Bool) (op : Op) : String :=
  if op.kind = SQLITE_INSERT then buildInsert ab op op.tbl (colsOf schema op.tbl) conflict
  else if op.kind = SQLITE_UPDATE then buildUpdate ab op op.tbl (colsOf schema op.tbl) conflict
  else buildDelete ab op op.tbl (colsOf schema op.tbl) conflict

/-- Modelled from the spec (§4.4): the statements of one `(table, kind)`
bucket, in input-stream order. -/
def linesFor (ab : BlobPolicy) (schema : Schema) (conflict : Bool) (ops : List Op)
    (t : String) (kind : Nat) : List String :=
  (ops.filter (fun op => op.tbl = t ∧ op.kind = kind)).map (lineOf ab schema conflict)

/-- Modelled from the spec (§4.4): one table's block — all Inserts, then
all Updates, then all Deletes, followed by the blank-line separator. -/
def specBlock (ab : BlobPolicy) (schema : Schema) (conflict : Bool) (ops : List Op)
    (t : String) : String :=
  String.join (linesFor ab schema conflict ops t SQLITE_INSERT) ++
  String.join (linesFor ab schema conflict ops t SQLITE_UPDATE) ++
  String.join (linesFor ab schema conflict ops t SQLITE_DELETE) ++ "\n"

/-- Modelled from the spec (§4.4): the whole output — the blocks of the
tables in first-seen order, with one trailing newline trimmed. -/
def specOutput (ab : BlobPolicy) (schema : Schema) (conflict : Bool) (ops : List Op) : String :=
  goTrimSuffix (String.join ((firstSeenTables ops).map (specBlock ab schema conflict ops))) "\n"

/-- The raw accumulation before the trim: every item followed by `", "`. -/
def joinComma : List String → String
  | [] => ""
  | s :: rest => s ++ ", " ++ joinComma rest

theorem goTrimSuffix_append (x u : String) : goTrimSuffix (x ++ u) u = x := by
  have hs : u.data.isSuffixOf (x ++ u).data = true := by
    rw [List.isSuffixOf_iff_suffix, String.data_append]
    exact List.suffix_append _ _
  unfold goTrimSuffix
  rw [hs]
  simp only [if_true]
  apply String.ext
  show ((x ++ u).data.take ((x ++ u).data.length - u.data.length)) = x.data
  rw [String.data_append, List.length_append]
  have h2 : x.data.length + u.data.length - u.data.length = x.data.length := by omega
  rw [h2, List.take_left]

theorem joinComma_eq_commaSep_append (l : List String) (h : l ≠ []) :
    joinComma l = commaSep l ++ ", " := by
  induction l with
  | nil => exact absurd rfl h
  | cons s rest ih =>
    cases rest with
    | nil => simp [joinComma, commaSep]
    | cons t r =>
      show s ++ ", " ++ joinComma (t :: r) = commaSep (s :: t :: r) ++ ", "
      rw [ih (by simp)]
      show s ++ ", " ++ (commaSep (t :: r) ++ ", ") = s ++ ", " ++ commaSep (t :: r) ++ ", "
      simp [String.append_assoc]

theorem goTrimSuffix_joinComma (l : List String) :
    goTrimSuffix (joinComma l) ", " = commaSep l := by
  cases l with
  | nil => decide
  | cons s rest =>
    rw [joinComma_eq_commaSep_append _ (by simp), goTrimSuffix_append]

theorem accumSel_eq_joinComma (f : Nat → String → Option String) :
    ∀ (l : List String) (i : Nat), accumSel f i l = joinComma (selectSel f i l)
  | [], _ => rfl
  | name :: rest, i => by
    simp only [accumSel, selectSel]
    cases f i name with
    | none => exact accumSel_eq_joinComma f rest (i + 1)
    | some s =>
      simp only [joinComma]
      rw [accumSel_eq_joinComma f rest (i + 1), String.append_assoc]

/-- The accumulate-then-trim idiom produces exactly the comma-separated
list of the selected items. -/
theorem trim_accumSel (f : Nat → String → Option String) (l : List String) (i : Nat) :
    goTrimSuffix (accumSel f i l) ", " = commaSep (selectSel f i l) := by
  rw [accumSel_eq_joinComma, goTrimSuffix_joinComma]

/-- `selectSel` is the `filterMap` of the selector over the indexed
name list. -/
theorem selectSel_eq_filterMap (f : Nat → String → Option String) :
    ∀ (l : List String) (i : Nat),
      selectSel f i l = (List.enumFrom i l).filterMap (fun p => f p.1 p.2)
  | [], _ => rfl
  | name :: rest, i => by
    simp only [selectSel, List.enumFrom_cons, List.filterMap_cons]
    cases f i name with
    | none => exact selectSel_eq_filterMap f rest (i + 1)
    | some s => rw [selectSel_eq_filterMap f rest (i + 1)]

/-- A selector of the shape "keep `g` when `keep` holds" selects the
filtered, mapped sublist. -/
theorem filterMap_guard_eq (keep : Nat → Bool) (g : Nat → String → String) :
    ∀ (l : List (Nat × String)),
      l.filterMap (fun p => if keep p.1 then some (g p.1 p.2) else none) =
        (l.filter (fun p => keep p.1)).map (fun p => g p.1 p.2)
  | [] => rfl
  | p :: rest => by
    simp only [List.filterMap_cons, List.filter_cons]
    cases h : keep p.1 with
    | false => simpa [h] using filterMap_guard_eq keep g rest
    | true => simpa [h] using filterMap_guard_eq keep g rest

/-- An option-map selector selects the `isSome`-filtered sublist. -/
theorem filterMap_optmap_eq (opt : Nat → Option Value) (g : Nat → String → String) :
    ∀ l : List (Nat × String),
      l.filterMap (fun p => (opt p.1).map (fun _ => g p.1 p.2)) =
        (l.filter (fun p => (opt p.1).isSome)).map (fun p => g p.1 p.2)
  | [] => rfl
  | p :: rest => by
    simp only [List.filterMap_cons, List.filter_cons]
    cases h : opt p.1 with
    | none => simpa [h] using filterMap_optmap_eq opt g rest
    | some v => simpa [h] using filterMap_optmap_eq opt g rest

/-- A selector whose every answer is `none` accumulates nothing. -/
theorem accumSel_none (f : Nat → String → Option String)
    (h : ∀ i name, f i name = none) : ∀ (l : List String) (i : Nat), accumSel f i l = ""
  | [], _ => rfl
  | name :: rest, i => by
    simp only [accumSel, h i name]
    exact accumSel_none f h rest (i + 1)

/-- Modelled from the spec (§4.2, for comparison with the source's
`strings.ReplaceAll` call): the text with every embedded single quote
doubled and nothing else changed. -/
def sqlQuoteDoubled (s : String) : String :=
  ⟨s.data.flatMap (fun c => if c = '\'' then [c, c] else [c])⟩

theorem replaceAll_quote_doubles :
    ∀ (fuel : Nat) (l : List Char), l.length ≤ fuel →
      replaceAllList ['\''] ['\'', '\''] fuel l =
        l.flatMap (fun c => if c = '\'' then [c, c] else [c])
  | _, [], _ => by cases ‹Nat› <;> rfl
  | 0, c :: rest, h => by simp at h
  | fuel + 1, c :: rest, h => by
    have hr : rest.length ≤ fuel := by simpa using h
    simp only [replaceAllList, List.isPrefixOf, List.flatMap_cons]
    by_cases hc : c = '\''
    · subst hc
      simp only [if_pos rfl]
      rw [if_pos (by simp [List.isPrefixOf])]
      simpa using replaceAll_quote_doubles fuel rest hr
    · rw [if_neg (by simp [List.isPrefixOf]; exact fun hh => hc hh.symm), if_neg hc]
      rw [replaceAll_quote_doubles fuel rest hr]
      simp

/-- The escaping the source applies to a TEXT value under the default
policy is exactly quote doubling. -/
theorem goReplaceAll_quote (s : String) : goReplaceAll s "'" "''" = sqlQuoteDoubled s := by
  unfold goReplaceAll
  rw [if_neg (by decide)]
  exact congrArg String.mk (replaceAll_quote_doubles s.data.length s.data le_rfl)

/-- C4: every Text value formatted under the default PreferText policy
(`AlwaysUseBlob = false`) becomes a single-quoted SQL string literal whose
embedded single quotes are each doubled; in particular the text `O'Brien`
formats as `'O''Brien'`. -/
theorem text_preferText_doubles_quotes :
    (∀ s : String, valueString false (.text s) = "'" ++ sqlQuoteDoubled s ++ "'") ∧
    valueString false (.text "O'Brien") = "'O''Brien'" := by
  constructor
  · intro s
    show "'" ++ goReplaceAll s "'" "''" ++ "'" = "'" ++ sqlQuoteDoubled s ++ "'"
    rw [goReplaceAll_quote]
  · decide

theorem hexUpper_cons (x : Nat) (rest : List Nat) :
    hexUpper (x :: rest) =
      ⟨[hexDigitU (x / 16 % 16), hexDigitU (x % 16)]⟩ ++ hexUpper rest := by
  apply String.ext
  simp [hexUpper, String.data_append]

theorem hexDigitU_mem_of_lt (d : Nat) (h : d < 16) :
    hexDigitU d ∈ ("0123456789ABCDEF" : String).data := by
  revert h
  revert d
  decide

/-- C5: every Blob value (under either policy), and every Text value under
the AlwaysBlob policy, formats as the blob marker `X'`, the uppercase hex
digits of the raw bytes (two digits per byte, so the digit string has
twice the byte count, and every emitted digit character is one of
0-9A-F), and a closing quote — including all-zero and all-0xFF bytes. -/
theorem blob_always_hex_literal :
    (∀ (ab : BlobPolicy) (b : List Nat), valueString ab (.blob b) = "X'" ++ hexUpper b ++ "'") ∧
    (∀ s : String, valueString true (.text s) = "X'" ++ hexUpper (textBytes s) ++ "'") ∧
    (∀ b : List Nat, (hexUpper b).data.length = 2 * b.length ∧
      ∀ c ∈ (hexUpper b).data, c ∈ ("0123456789ABCDEF" : String).data) ∧
    valueString false (.blob [0, 0, 0]) = "X'000000'" ∧
    valueString true (.blob [255, 255]) = "X'FFFF'" ∧
    valueString true (.text "hi") = "X'6869'" := by
  refine ⟨fun ab b => rfl, fun s => rfl, ?_, by decide, by decide, by decide⟩
  intro b
  induction b with
  | nil => exact ⟨rfl, by intro c hc; simp [hexUpper] at hc⟩
  | cons x rest ih =>
    constructor
    · rw [hexUpper_cons, String.data_append]
      simp only [List.length_append, ih.1, List.length_cons]
      simp
      omega
    · intro c hc
      rw [hexUpper_cons, String.data_append] at hc
      rcases List.mem_append.mp hc with h | h
      · have h16a : x / 16 % 16 < 16 := Nat.mod_lt _ (by omega)
        have h16b : x % 16 < 16 := Nat.mod_lt _ (by omega)
        simp only [List.mem_cons, List.not_mem_nil, or_false] at h
        rcases h with h | h <;> subst h
        · exact hexDigitU_mem_of_lt _ h16a
        · exact hexDigitU_mem_of_lt _ h16b
      · exact ih.2 c h

/-- C10 (implicit): an Insert operation all of whose new values are nil
still emits a statement, with empty column and value lists:
`INSERT INTO "t" () VALUES ();` (the builder terminates every statement
with a newline). -/
theorem insert_all_nil_emits_empty_lists (ab : BlobPolicy) (op : Op) (tbl : String)
    (names : List String) (h : ∀ i, op.newAt i = none) :
    buildInsert ab op tbl names false = "INSERT INTO " ++ goQuote tbl ++ " () VALUES ();\n" := by
  have hc : accumSel (insColSel op) 0 names = "" := by
    refine accumSel_none _ (fun i name => ?_) names 0
    simp [insColSel, h i]
  have hv : accumSel (insValSel ab op) 0 names = "" := by
    refine accumSel_none _ (fun i name => ?_) names 0
    simp [insValSel, h i]
  show "INSERT INTO " ++ goQuote tbl ++ " (" ++ goTrimSuffix (accumSel (insColSel op) 0 names) ", " ++
      ") VALUES (" ++ goTrimSuffix (accumSel (insValSel ab op) 0 names) ", " ++ ")" ++ "" ++ ";\n" =
    "INSERT INTO " ++ goQuote tbl ++ " () VALUES ();\n"
  rw [hc, hv]
  have ht : goTrimSuffix "" ", " = "" := by decide
  rw [ht]
  simp only [String.append_assoc, String.append_empty]
  congr 1

/-- Witness for C10 at a concrete operation carrying no new values. -/
theorem insert_all_nil_witness :
    buildInsert false ⟨"t", SQLITE_INSERT, [], [], [], []⟩ "t" ["a", "b", "c"] false =
      "INSERT INTO \"t\" () VALUES ();\n" := by
  have h : ∀ i, Op.newAt ⟨"t", SQLITE_INSERT, [], [], [], []⟩ i = none := by
    intro i
    cases i <;> rfl
  rw [insert_all_nil_emits_empty_lists false _ "t" ["a", "b", "c"] h]
  decide

/-- The indexed columns an Insert includes: those whose new value is
non-nil, in column order. -/
def insertIncluded (op : Op) (names : List String) : List (Nat × String) :=
  names.enum.filter (fun p => (op.newAt p.1).isSome)

/-- The indexed primary-key columns, in column order. -/
def pkIncluded (op : Op) (names : List String) : List (Nat × String) :=
  names.enum.filter (fun p => op.pkAt p.1)

/-- The WHERE column list of an Update/Delete: exactly the quoted
primary-key columns, in original column order. -/
def whereColsSpec (op : Op) (names : List String) : List String :=
  (pkIncluded op names).map (fun p => goQuote p.2)

/-- The WHERE value list of an Update/Delete: the rendered pre-change
(old) values of the primary-key columns, in the same order. -/
def whereValsSpec (ab : BlobPolicy) (op : Op) (names : List String) : List String :=
  (pkIncluded op names).map (fun p => valueStringOpt ab (op.oldAt p.1))

theorem insertCols_eq (op : Op) (names : List String) :
    selectSel (insColSel op) 0 names = (insertIncluded op names).map (fun p => goQuote p.2) := by
  rw [selectSel_eq_filterMap, ← List.enum_eq_enumFrom]
  exact filterMap_optmap_eq op.newAt (fun _ name => goQuote name) names.enum

theorem insertVals_eq (ab : BlobPolicy) (op : Op) (names : List String) :
    selectSel (insValSel ab op) 0 names =
      (insertIncluded op names).map (fun p => valueStringOpt ab (op.newAt p.1)) := by
  rw [selectSel_eq_filterMap, ← List.enum_eq_enumFrom]
  trans (names.enum.filterMap (fun p => (op.newAt p.1).map (fun _ => valueStringOpt ab (op.newAt p.1))))
  · refine List.filterMap_congr (fun p _ => ?_)
    cases h : op.newAt p.1 <;> simp [insValSel, valueStringOpt, h]
  · exact filterMap_optmap_eq op.newAt (fun i _ => valueStringOpt ab (op.newAt i)) names.enum

theorem pkCols_eq (op : Op) (names : List String) :
    selectSel (pkColSel op) 0 names = whereColsSpec op names := by
  rw [selectSel_eq_filterMap, ← List.enum_eq_enumFrom]
  exact filterMap_guard_eq op.pkAt (fun _ name => goQuote name) names.enum

theorem pkVals_eq (ab : BlobPolicy) (op : Op) (names : List String) :
    selectSel (pkValSel ab op) 0 names = whereValsSpec ab op names := by
  rw [selectSel_eq_filterMap, ← List.enum_eq_enumFrom]
  exact filterMap_guard_eq op.pkAt (fun i _ => valueStringOpt ab (op.oldAt i)) names.enum

/-- C3: an Insert omits a column from both its column list and its value
list exactly when the operation records no new value for it
(`iter.New(i)` is nil), and both emitted lists are images of the same
included-column list, so the i-th listed column corresponds to the i-th
listed value. -/
theorem insert_omits_nil_columns (ab : BlobPolicy) (op : Op) (tbl : String)
    (names : List String) (conflict : Bool) :
    (∃ conf,
      buildInsert ab op tbl names conflict =
        "INSERT INTO " ++ goQuote tbl ++ " (" ++
          commaSep ((insertIncluded op names).map (fun p => goQuote p.2)) ++ ") VALUES (" ++
          commaSep ((insertIncluded op names).map (fun p => valueStringOpt ab (op.newAt p.1))) ++
          ")" ++ conf ++ ";\n") ∧
    (∀ p ∈ names.enum, op.newAt p.1 = none → p ∉ insertIncluded op names) := by
  constructor
  · have hc : goTrimSuffix (accumSel (insColSel op) 0 names) ", " =
        commaSep ((insertIncluded op names).map (fun p => goQuote p.2)) := by
      rw [trim_accumSel, insertCols_eq]
    have hv : goTrimSuffix (accumSel (insValSel ab op) 0 names) ", " =
        commaSep ((insertIncluded op names).map (fun p => valueStringOpt ab (op.newAt p.1))) := by
      rw [trim_accumSel, insertVals_eq]
    refine ⟨if conflict then
        " /* conflict: (" ++ goTrimSuffix (accumSel (insConfSel ab op) 0 names) ", " ++ ") */"
      else "", ?_⟩
    rw [← hc, ← hv]
    rfl
  · intro p _ hnone hmem
    have := List.of_mem_filter hmem
    rw [hnone] at this
    simp at this

/-- C2: for every Update and every Delete, the WHERE clause lists exactly
the primary-key columns, in their original column order, and compares
them against the rendered pre-change (old) values of those columns. -/
theorem update_delete_where_uses_pk_old (ab : BlobPolicy) (op : Op) (tbl : String)
    (names : List String) (conflict : Bool) :
    (∃ setC setV oldV conf,
      buildUpdate ab op tbl names conflict =
        "UPDATE " ++ goQuote tbl ++ " SET (" ++ setC ++ ") = (" ++ setV ++ ") WHERE (" ++
          commaSep (whereColsSpec op names) ++ ") = (" ++ commaSep (whereValsSpec ab op names) ++
          ") /* old: (" ++ oldV ++ ") " ++ conf ++ "*/;\n") ∧
    (∃ oldC oldV conf,
      buildDelete ab op tbl names conflict =
        "DELETE FROM " ++ goQuote tbl ++ " WHERE (" ++ commaSep (whereColsSpec op names) ++
          ") = (" ++ commaSep (whereValsSpec ab op names) ++ ") /* (" ++ oldC ++ ") = (" ++
          oldV ++ ") " ++ conf ++ "*/;\n") := by
  have hc : goTrimSuffix (accumSel (pkColSel op) 0 names) ", " =
      commaSep (whereColsSpec op names) := by
    rw [trim_accumSel, pkCols_eq]
  have hv : goTrimSuffix (accumSel (pkValSel ab op) 0 names) ", " =
      commaSep (whereValsSpec ab op names) := by
    rw [trim_accumSel, pkVals_eq]
  constructor
  · refine ⟨goTrimSuffix (accumSel (updSetColSel op) 0 names) ", ",
      goTrimSuffix (accumSel (updSetValSel ab op) 0 names) ", ",
      goTrimSuffix (accumSel (updOldValSel ab op) 0 names) ", ",
      (if conflict then
        "conflict: (" ++ goTrimSuffix (accumSel (updConfSel ab op) 0 names) ", " ++ ") "
      else ""), ?_⟩
    rw [← hc, ← hv]
    rfl
  · refine ⟨goTrimSuffix (accumSel (delOldColSel op) 0 names) ", ",
      goTrimSuffix (accumSel (delOldValSel ab op) 0 names) ", ",
      (if conflict then
        "conflict: (" ++ goTrimSuffix (accumSel (delConfSel ab op) 0 names) ", " ++ ") "
      else ""), ?_⟩
    rw [← hc, ← hv]
    rfl

theorem lookupCache_append_of_none (c : Cache) (d : Cache) (t : String)
    (h : lookupCache c t = none) : lookupCache (c ++ d) t = lookupCache d t := by
  induction c with
  | nil => rfl
  | cons p rest ih =>
    obtain ⟨pt, pns⟩ := p
    have h2 : lookupCache ((pt, pns) :: rest) t = if pt = t then some pns else lookupCache rest t :=
      rfl
    rw [h2] at h
    show (if pt = t then some pns else lookupCache (rest ++ d) t) = lookupCache d t
    by_cases he : pt = t
    · rw [if_pos he] at h
      cases h
    · rw [if_neg he] at h
      rw [if_neg he]
      exact ih h

theorem BuildSQL_err_eq (ab : BlobPolicy) (schema : Schema) (cache : Cache) (op : Op)
    (conflict : Bool) (e : BuildErr)
    (hG : GetColNames schema cache op.tbl = .error e) :
    BuildSQL ab schema cache op conflict = .error e := by
  unfold BuildSQL
  rw [hG]

theorem BuildSQL_ok_eq (ab : BlobPolicy) (schema : Schema) (cache : Cache) (op : Op)
    (conflict : Bool) (names : List String) (cache' : Cache)
    (hG : GetColNames schema cache op.tbl = .ok (names, cache')) :
    BuildSQL ab schema cache op conflict =
      if op.kind = SQLITE_INSERT then .ok (buildInsert ab op op.tbl names conflict, cache')
      else if op.kind = SQLITE_UPDATE then .ok (buildUpdate ab op op.tbl names conflict, cache')
      else if op.kind = SQLITE_DELETE then .ok (buildDelete ab op op.tbl names conflict, cache')
      else .error .unsupportedOperationKind := by
  unfold BuildSQL
  rw [hG]

/-- C7: when the table is not cached and the schema collaborator's lookup
fails (unknown table or failed query), column-name resolution fails with
the schema-lookup error, the statement build propagates the same error
and no statement is produced. -/
theorem schema_lookup_error_propagates (schema : Schema) (cache : Cache) (tbl : String)
    (hmiss : lookupCache cache tbl = none) (hfail : schema tbl = .error ()) :
    GetColNames schema cache tbl = .error .schemaLookupError ∧
    ∀ (ab : BlobPolicy) (op : Op) (conflict : Bool), op.tbl = tbl →
      BuildSQL ab schema cache op conflict = .error .schemaLookupError := by
  have h1 : GetColNames schema cache tbl = .error .schemaLookupError := by
    unfold GetColNames
    rw [hmiss, hfail]
  refine ⟨h1, fun ab op conflict heq => ?_⟩
  unfold BuildSQL
  rw [heq, h1]

/-- Witness for C7: an empty cache and an always-failing schema. -/
theorem schema_lookup_error_witness :
    GetColNames (fun _ => .error ()) [] "missing" = .error .schemaLookupError ∧
    BuildSQL false (fun _ => .error ()) [] ⟨"missing", SQLITE_INSERT, [], [], [], []⟩ false =
      .error .schemaLookupError := by
  have h := schema_lookup_error_propagates (fun _ => .error ()) [] "missing" rfl rfl
  exact ⟨h.1, h.2 false ⟨"missing", SQLITE_INSERT, [], [], [], []⟩ false rfl⟩

/-- C8: column-name resolution is idempotent per table within one run: a
cached table is answered from the cache, unchanged and independently of
the schema collaborator (no query is issued), while the first request
queries the collaborator and stores its answer in the cache. -/
theorem getColNames_idempotent (schema schema2 : Schema) (cache : Cache) (tbl : String) :
    (∀ ns, lookupCache cache tbl = some ns →
      GetColNames schema cache tbl = .ok (ns, cache) ∧
      GetColNames schema cache tbl = GetColNames schema2 cache tbl) ∧
    (lookupCache cache tbl = none → ∀ cols, schema tbl = .ok cols →
      GetColNames schema cache tbl = .ok (cols, cache ++ [(tbl, cols)]) ∧
      lookupCache (cache ++ [(tbl, cols)]) tbl = some cols) := by
  constructor
  · intro ns h
    constructor
    · unfold GetColNames
      rw [h]
    · unfold GetColNames
      rw [h]
  · intro hm cols hs
    constructor
    · unfold GetColNames
      rw [hm, hs]
    · rw [lookupCache_append_of_none cache _ tbl hm]
      unfold lookupCache
      rw [if_pos rfl]

/-- Witness for C8: a cache hit answered without consulting (two distinct)
schemas, and a cache miss stored and then found. -/
theorem getColNames_idempotent_witness :
    GetColNames (fun _ => .ok ["z"]) [("t", ["a"])] "t" = .ok (["a"], [("t", ["a"])]) ∧
    GetColNames (fun _ => .ok ["z"]) [("t", ["a"])] "t" =
      GetColNames (fun _ => .error ()) [("t", ["a"])] "t" ∧
    GetColNames (fun _ => .ok ["x", "y"]) [] "u" = .ok (["x", "y"], [("u", ["x", "y"])]) ∧
    lookupCache [("u", ["x", "y"])] "u" = some ["x", "y"] := by
  have h1 := getColNames_idempotent (fun _ => .ok ["z"]) (fun _ => .error ()) [("t", ["a"])] "t"
  have h2 := getColNames_idempotent (fun _ => .ok ["x", "y"]) (fun _ => .ok ["x", "y"]) [] "u"
  exact ⟨(h1.1 ["a"] rfl).1, (h1.1 ["a"] rfl).2, (h2.2 rfl ["x", "y"] rfl).1,
    (h2.2 rfl ["x", "y"] rfl).2⟩

theorem getColNames_no_kind_error (schema : Schema) (cache : Cache) (tbl : String) :
    GetColNames schema cache tbl ≠ .error .unsupportedOperationKind := by
  unfold GetColNames
  cases lookupCache cache tbl with
  | some ns => simp
  | none =>
    cases schema tbl with
    | error e => simp
    | ok cols => simp

/-- C9: an operation whose kind is none of INSERT, UPDATE and DELETE makes
the statement build fail with the unsupported-operation-kind error (the
source's panic), once column names resolve; an operation of one of the
three known kinds never produces that error. -/
theorem unsupported_op_kind_panics (ab : BlobPolicy) (schema : Schema) (cache : Cache)
    (op : Op) (conflict : Bool) :
    (op.kind ≠ SQLITE_INSERT → op.kind ≠ SQLITE_UPDATE → op.kind ≠ SQLITE_DELETE →
      (GetColNames schema cache op.tbl).isOk = true →
      BuildSQL ab schema cache op conflict = .error .unsupportedOperationKind) ∧
    ((op.kind = SQLITE_INSERT ∨ op.kind = SQLITE_UPDATE ∨ op.kind = SQLITE_DELETE) →
      BuildSQL ab schema cache op conflict ≠ .error .unsupportedOperationKind) := by
  cases hG : GetColNames schema cache op.tbl with
  | error e =>
    rw [BuildSQL_err_eq ab schema cache op conflict e hG]
    constructor
    · intro _ _ _ hok
      simp [Except.isOk, Except.toBool] at hok
    · intro _ hEq
      have he : e ≠ BuildErr.unsupportedOperationKind := by
        intro h
        subst h
        exact getColNames_no_kind_error schema cache op.tbl hG
      injection hEq with h
      exact he h
  | ok res =>
    obtain ⟨names, cache'⟩ := res
    rw [BuildSQL_ok_eq ab schema cache op conflict names cache' hG]
    constructor
    · intro h1 h2 h3 _
      rw [if_neg h1, if_neg h2, if_neg h3]
    · intro hk
      rcases hk with h | h | h
      · rw [if_pos h]
        simp
      · have h1 : op.kind ≠ SQLITE_INSERT := by
          rw [h]
          decide
        rw [if_neg h1, if_pos h]
        simp
      · have h1 : op.kind ≠ SQLITE_INSERT := by
          rw [h]
          decide
        have h2 : op.kind ≠ SQLITE_UPDATE := by
          rw [h]
          decide
        rw [if_neg h1, if_neg h2, if_pos h]
        simp

/-- Witness for C9: kind 99 panics, kind INSERT does not. -/
theorem unsupported_op_kind_witness :
    BuildSQL false (fun _ => .ok ["a"]) [] ⟨"t", 99, [], [], [], []⟩ false =
      .error .unsupportedOperationKind ∧
    BuildSQL false (fun _ => .ok ["a"]) []
        ⟨"t", SQLITE_INSERT, [], [some (.integer 1)], [], [true]⟩ false ≠
      .error .unsupportedOperationKind := by
  have h1 := unsupported_op_kind_panics false (fun _ => .ok ["a"]) []
    ⟨"t", 99, [], [], [], []⟩ false
  have h2 := unsupported_op_kind_panics false (fun _ => .ok ["a"]) []
    ⟨"t", SQLITE_INSERT, [], [some (.integer 1)], [], [true]⟩ false
  exact ⟨h1.1 (by decide) (by decide) (by decide) (by decide), h2.2 (Or.inl rfl)⟩

/-- The cache only ever holds answers the schema collaborator gave. -/
def CacheOK (schema : Schema) (c : Cache) : Prop :=
  ∀ t ns, lookupCache c t = some ns → schema t = .ok ns

theorem lookupCache_append_of_some (c : Cache) (d : Cache) (t : String) (m : List String)
    (h : lookupCache c t = some m) : lookupCache (c ++ d) t = some m := by
  induction c with
  | nil => cases h
  | cons p rest ih =>
    obtain ⟨pt, pns⟩ := p
    have h2 : lookupCache ((pt, pns) :: rest) t = if pt = t then some pns else lookupCache rest t :=
      rfl
    rw [h2] at h
    show (if pt = t then some pns else lookupCache (rest ++ d) t) = some m
    by_cases he : pt = t
    · rw [if_pos he] at h ⊢
      exact h
    · rw [if_neg he] at h ⊢
      exact ih h

theorem GetColNames_of_cacheOK (schema : Schema) (c : Cache) (t : String) (ns : List String)
    (hc : CacheOK schema c) (hs : schema t = .ok ns) :
    ∃ c', GetColNames schema c t = .ok (ns, c') ∧ CacheOK schema c' := by
  cases hl : lookupCache c t with
  | some ns' =>
    have : schema t = .ok ns' := hc t ns' hl
    rw [hs] at this
    injection this with hns
    subst hns
    refine ⟨c, ?_, hc⟩
    unfold GetColNames
    rw [hl]
  | none =>
    refine ⟨c ++ [(t, ns)], ?_, ?_⟩
    · unfold GetColNames
      rw [hl, hs]
    · intro u m hm
      by_cases hcu : lookupCache c u = none
      · rw [lookupCache_append_of_none c _ u hcu] at hm
        have h3 : lookupCache [(t, ns)] u = if t = u then some ns else none := rfl
        rw [h3] at hm
        by_cases htu : t = u
        · rw [if_pos htu] at hm
          injection hm with hm
          subst htu
          rw [hs, hm]
        · rw [if_neg htu] at hm
          cases hm
      · cases hl2 : lookupCache c u with
        | none => exact absurd hl2 hcu
        | some m' =>
          rw [lookupCache_append_of_some c _ u m' hl2] at hm
          injection hm with hm
          subst hm
          exact hc u m' hl2

theorem BuildSQL_known (ab : BlobPolicy) (schema : Schema) (c : Cache) (op : Op)
    (conflict : Bool) (ns : List String) (c' : Cache)
    (hk : op.kind = SQLITE_INSERT ∨ op.kind = SQLITE_UPDATE ∨ op.kind = SQLITE_DELETE)
    (hs : schema op.tbl = .ok ns)
    (hG : GetColNames schema c op.tbl = .ok (ns, c')) :
    BuildSQL ab schema c op conflict = .ok (lineOf ab schema conflict op, c') := by
  have hcols : colsOf schema op.tbl = ns := by
    unfold colsOf
    rw [hs]
  rw [BuildSQL_ok_eq ab schema c op conflict ns c' hG]
  unfold lineOf
  rw [hcols]
  rcases hk with h | h | h
  · rw [if_pos h, if_pos h]
  · have h1 : op.kind ≠ SQLITE_INSERT := by
      rw [h]
      decide
    rw [if_neg h1, if_pos h, if_neg h1, if_pos h]
  · have h1 : op.kind ≠ SQLITE_INSERT := by
      rw [h]
      decide
    have h2 : op.kind ≠ SQLITE_UPDATE := by
      rw [h]
      decide
    rw [if_neg h1, if_neg h2, if_pos h, if_neg h1, if_neg h2]

theorem mem_seenFold (t : String) :
    ∀ (p : List Op) (acc : List String),
      t ∈ p.foldl seenStep acc ↔ t ∈ acc ∨ ∃ op ∈ p, op.tbl = t
  | [], acc => by simp
  | op :: rest, acc => by
    show t ∈ rest.foldl seenStep (seenStep acc op) ↔ _
    rw [mem_seenFold t rest (seenStep acc op)]
    unfold seenStep
    constructor
    · rintro (h | h)
      · by_cases hc : acc.contains op.tbl
        · rw [if_pos hc] at h
          exact Or.inl h
        · rw [if_neg hc] at h
          rcases List.mem_append.mp h with h | h
          · exact Or.inl h
          · simp only [List.mem_singleton] at h
            exact Or.inr ⟨op, List.mem_cons_self op rest, h.symm⟩
      · obtain ⟨o, ho, hto⟩ := h
        exact Or.inr ⟨o, List.mem_cons_of_mem op ho, hto⟩
    · rintro (h | ⟨o, ho, hto⟩)
      · left
        by_cases hc : acc.contains op.tbl
        · rw [if_pos hc]
          exact h
        · rw [if_neg hc]
          exact List.mem_append_left _ h
      · rcases List.mem_cons.mp ho with rfl | ho'
        · left
          by_cases hc : acc.contains o.tbl
          · rw [if_pos hc]
            subst hto
            exact List.elem_iff.mp hc
          · rw [if_neg hc]
            subst hto
            exact List.mem_append_right _ (List.mem_singleton.mpr rfl)
        · exact Or.inr ⟨o, ho', hto⟩

theorem nodup_seenFold :
    ∀ (p : List Op) (acc : List String), acc.Nodup → (p.foldl seenStep acc).Nodup
  | [], _, h => h
  | op :: rest, acc, h => by
    show (rest.foldl seenStep (seenStep acc op)).Nodup
    refine nodup_seenFold rest _ ?_
    unfold seenStep
    by_cases hc : acc.contains op.tbl
    · rw [if_pos hc]
      exact h
    · rw [if_neg hc]
      rw [List.nodup_append]
      refine ⟨h, List.nodup_singleton _, ?_⟩
      intro x hx hs
      simp only [List.mem_singleton] at hs
      subst hs
      exact hc (List.elem_iff.mpr hx)

theorem firstSeenTables_append_single (p : List Op) (op : Op) :
    firstSeenTables (p ++ [op]) = seenStep (firstSeenTables p) op := by
  unfold firstSeenTables
  rw [List.foldl_append]
  rfl

theorem firstSeenTables_nodup (p : List Op) : (firstSeenTables p).Nodup :=
  nodup_seenFold p [] List.nodup_nil

theorem mem_firstSeenTables (t : String) (p : List Op) :
    t ∈ firstSeenTables p ↔ ∃ op ∈ p, op.tbl = t := by
  unfold firstSeenTables
  rw [mem_seenFold]
  simp

theorem linesFor_append_single (ab : BlobPolicy) (schema : Schema) (conflict : Bool)
    (p : List Op) (op : Op) (t : String) (k : Nat) :
    linesFor ab schema conflict (p ++ [op]) t k =
      linesFor ab schema conflict p t k ++
        (if op.tbl = t ∧ op.kind = k then [lineOf ab schema conflict op] else []) := by
  unfold linesFor
  rw [List.filter_append, List.map_append]
  congr 1
  by_cases h : op.tbl = t ∧ op.kind = k
  · rw [if_pos h]
    simp [h]
  · rw [if_neg h]
    simp [h]

theorem linesFor_nil_of_not_seen (ab : BlobPolicy) (schema : Schema) (conflict : Bool)
    (p : List Op) (t : String) (k : Nat) (h : t ∉ firstSeenTables p) :
    linesFor ab schema conflict p t k = [] := by
  unfold linesFor
  have hnone : ∀ o ∈ p, o.tbl ≠ t := by
    intro o ho he
    exact h ((mem_firstSeenTables t p).mpr ⟨o, ho, he⟩)
  rw [List.filter_eq_nil_iff.mpr ?_]
  · rfl
  · intro o ho
    simp only [decide_eq_true_eq, not_and]
    intro he
    exact absurd he (hnone o ho)

/-- The buckets a prefix of the stream accumulates, stated declaratively:
the tables in first-seen order, each with its per-kind statement lists. -/
def groupOf (ab : BlobPolicy) (schema : Schema) (conflict : Bool) (p : List Op) :
    List (String × Buckets) :=
  (firstSeenTables p).map (fun t =>
    (t, ⟨linesFor ab schema conflict p t SQLITE_INSERT,
         linesFor ab schema conflict p t SQLITE_UPDATE,
         linesFor ab schema conflict p t SQLITE_DELETE⟩))

theorem tableOpsAdd_map_mem (B : String → Buckets) (tbl : String) (idx : Nat) (line : String) :
    ∀ ts : List String, ts.Nodup → tbl ∈ ts →
      tableOpsAdd (ts.map (fun u => (u, B u))) tbl idx line =
        ts.map (fun u => (u, if u = tbl then (B u).add idx line else B u))
  | [], _, hm => absurd hm (List.not_mem_nil tbl)
  | t :: rest, hnd, hm => by
    show tableOpsAdd ((t, B t) :: rest.map (fun u => (u, B u))) tbl idx line = _
    unfold tableOpsAdd
    by_cases he : t = tbl
    · rw [if_pos he]
      subst he
      simp only [List.map_cons, if_pos rfl]
      congr 1
      refine (List.map_congr_left (fun u hu => ?_)).symm
      have hne : u ≠ t := by
        intro h
        subst h
        exact (List.nodup_cons.mp hnd).1 hu
      rw [if_neg hne]
    · rw [if_neg he]
      have hm' : tbl ∈ rest := by
        rcases List.mem_cons.mp hm with h | h
        · exact absurd h.symm he
        · exact h
      rw [tableOpsAdd_map_mem B tbl idx line rest (List.nodup_cons.mp hnd).2 hm']
      simp only [List.map_cons]
      rw [if_neg he]

theorem tableOpsAdd_map_not_mem (B : String → Buckets) (tbl : String) (idx : Nat)
    (line : String) :
    ∀ ts : List String, tbl ∉ ts →
      tableOpsAdd (ts.map (fun u => (u, B u))) tbl idx line =
        ts.map (fun u => (u, B u)) ++ [(tbl, Buckets.empty.add idx line)]
  | [], _ => rfl
  | t :: rest, hm => by
    show tableOpsAdd ((t, B t) :: rest.map (fun u => (u, B u))) tbl idx line = _
    unfold tableOpsAdd
    have he : t ≠ tbl := fun h => hm (h ▸ List.mem_cons_self t rest)
    rw [if_neg he, tableOpsAdd_map_not_mem B tbl idx line rest
      (fun h => hm (List.mem_cons_of_mem t h))]
    rfl

theorem groupOf_append_single (ab : BlobPolicy) (schema : Schema) (conflict : Bool)
    (p : List Op) (op : Op)
    (hk : op.kind = SQLITE_INSERT ∨ op.kind = SQLITE_UPDATE ∨ op.kind = SQLITE_DELETE) :
    groupOf ab schema conflict (p ++ [op]) =
      tableOpsAdd (groupOf ab schema conflict p) op.tbl (opIndexOf op.kind)
        (lineOf ab schema conflict op) := by
  by_cases hmem : op.tbl ∈ firstSeenTables p
  · have hfs : firstSeenTables (p ++ [op]) = firstSeenTables p := by
      rw [firstSeenTables_append_single]
      unfold seenStep
      rw [if_pos (List.elem_iff.mpr hmem)]
    unfold groupOf
    rw [hfs, tableOpsAdd_map_mem _ op.tbl _ _ (firstSeenTables p) (firstSeenTables_nodup p) hmem]
    refine List.map_congr_left (fun t ht => ?_)
    rw [linesFor_append_single, linesFor_append_single, linesFor_append_single]
    by_cases he : t = op.tbl
    · rw [if_pos he]
      rcases hk with h | h | h <;>
        simp [he, h, opIndexOf, Buckets.add, SQLITE_INSERT, SQLITE_UPDATE, SQLITE_DELETE]
    · rw [if_neg he]
      have he2 : ¬(op.tbl = t) := fun hh => he hh.symm
      simp [he2]
  · have hfs : firstSeenTables (p ++ [op]) = firstSeenTables p ++ [op.tbl] := by
      rw [firstSeenTables_append_single]
      unfold seenStep
      rw [if_neg (fun hc => hmem (List.elem_iff.mp hc))]
    unfold groupOf
    rw [hfs, tableOpsAdd_map_not_mem _ op.tbl _ _ (firstSeenTables p) hmem, List.map_append]
    congr 1
    · refine List.map_congr_left (fun t ht => ?_)
      have he2 : ¬(op.tbl = t) := fun hh => hmem (hh ▸ ht)
      rw [linesFor_append_single, linesFor_append_single, linesFor_append_single]
      simp [he2]
    · have hnil : ∀ k, linesFor ab schema conflict p op.tbl k = [] :=
        fun k => linesFor_nil_of_not_seen ab schema conflict p op.tbl k hmem
      rcases hk with h | h | h <;>
        simp [linesFor_append_single, hnil, h, opIndexOf, Buckets.add, Buckets.empty,
          SQLITE_INSERT, SQLITE_UPDATE, SQLITE_DELETE]

theorem compileLoop_groupOf (ab : BlobPolicy) (schema : Schema) (conflict : Bool) :
    ∀ (ops p : List Op) (c : Cache), CacheOK schema c →
      (∀ op ∈ ops,
        (op.kind = SQLITE_INSERT ∨ op.kind = SQLITE_UPDATE ∨ op.kind = SQLITE_DELETE) ∧
        ∃ ns, schema op.tbl = .ok ns) →
      compileLoop ab schema conflict c (groupOf ab schema conflict p) ops =
        .ok (groupOf ab schema conflict (p ++ ops))
  | [], p, c, _, _ => by
    rw [List.append_nil]
    rfl
  | op :: rest, p, c, hc, hops => by
    obtain ⟨hk, ns, hs⟩ := hops op (List.mem_cons_self op rest)
    obtain ⟨c', hG, hc'⟩ := GetColNames_of_cacheOK schema c op.tbl ns hc hs
    have hB := BuildSQL_known ab schema c op conflict ns c' hk hs hG
    unfold compileLoop
    rw [hB]
    show compileLoop ab schema conflict c'
        (tableOpsAdd (groupOf ab schema conflict p) op.tbl (opIndexOf op.kind)
          (lineOf ab schema conflict op)) rest =
      Except.ok (groupOf ab schema conflict (p ++ op :: rest))
    rw [← groupOf_append_single ab schema conflict p op hk,
      compileLoop_groupOf ab schema conflict rest (p ++ [op]) c' hc'
        (fun o ho => hops o (List.mem_cons_of_mem op ho)),
      List.append_assoc]
    rfl

/-- C1 (amended): for every operation stream whose kinds are the three
known ones and whose tables the schema collaborator resolves, the
compiled output lists tables in first-seen order and, within each table,
all Insert statements, then all Updates, then all Deletes, each bucket in
input-stream order, with each table's block followed by a blank-line
separator; a single trailing newline (the last block's separator) is then
removed, so each statement keeps its terminating newline and a nonempty
result still ends with one newline — trailing whitespace is NOT fully
trimmed. -/
theorem compiled_output_grouping (ab : BlobPolicy) (schema : Schema) (conflict : Bool)
    (ops : List Op)
    (hknown : ∀ op ∈ ops,
      op.kind = SQLITE_INSERT ∨ op.kind = SQLITE_UPDATE ∨ op.kind = SQLITE_DELETE)
    (hschema : ∀ op ∈ ops, ∃ ns, schema op.tbl = .ok ns) :
    ChangesetIterToSQL ab schema ops conflict = .ok (specOutput ab schema conflict ops) := by
  have h := compileLoop_groupOf ab schema conflict ops [] []
    (fun t ns hx => nomatch hx) (fun op hop => ⟨hknown op hop, hschema op hop⟩)
  have hg0 : groupOf ab schema conflict [] = [] := rfl
  rw [hg0] at h
  unfold ChangesetIterToSQL
  rw [h]
  simp only [List.nil_append]
  show Except.ok (goTrimSuffix (renderTableOps (groupOf ab schema conflict ops)) "\n") = _
  congr 1
  unfold specOutput
  congr 1
  unfold renderTableOps groupOf
  rw [List.map_map]
  rfl

/-- A two-column, two-table schema for the C1 witness. -/
def schemaTwoTables : Schema := fun t =>
  if t = "t" then .ok ["a"] else if t = "u" then .ok ["x"] else .error ()

/-- Concrete insert into table t. -/
def opInsT : Op := ⟨"t", SQLITE_INSERT, [], [some (.integer 1)], [], [true]⟩

/-- Concrete insert into table u. -/
def opInsU : Op := ⟨"u", SQLITE_INSERT, [], [some (.integer 2)], [], [true]⟩

/-- Concrete delete from table t. -/
def opDelT : Op := ⟨"t", SQLITE_DELETE, [some (.integer 1)], [], [], [true]⟩

/-- Witness for C1 (amended) on an interleaved two-table stream: all of
table t's statements (insert, then delete) come before table u's, the
blocks are separated by a blank line, and the result ends with one
newline. -/
theorem compiled_output_grouping_witness :
    ChangesetIterToSQL false schemaTwoTables [opInsT, opInsU, opDelT] false =
      .ok "INSERT INTO \"t\" (\"a\") VALUES (1);\nDELETE FROM \"t\" WHERE (\"a\") = (1) /* () = () */;\n\nINSERT INTO \"u\" (\"x\") VALUES (2);\n" := by
  have h := compiled_output_grouping false schemaTwoTables false [opInsT, opInsU, opDelT]
    (by
      intro op hop
      simp only [List.mem_cons, List.not_mem_nil, or_false] at hop
      rcases hop with rfl | rfl | rfl <;> decide)
    (by
      intro op hop
      simp only [List.mem_cons, List.not_mem_nil, or_false] at hop
      rcases hop with rfl | rfl | rfl
      · exact ⟨["a"], rfl⟩
      · exact ⟨["x"], rfl⟩
      · exact ⟨["a"], rfl⟩)
  rw [h]
  rfl

/-- A one-table schema for the C1 counterexample. -/
def schemaSingle : Schema := fun t => if t = "t" then .ok ["a"] else .error ()

/-- Counterexample to C1 as stated: the compiled result of a one-insert
stream ends with a newline character, so trailing whitespace is not
trimmed from the final result (the source only drops the one trailing
blank-line separator). -/
theorem compiled_output_keeps_trailing_newline :
    ChangesetIterToSQL false schemaSingle [opInsT] false =
      .ok "INSERT INTO \"t\" (\"a\") VALUES (1);\n" ∧
    ("INSERT INTO \"t\" (\"a\") VALUES (1);\n").data.getLast? = some '\n' := by
  exact ⟨rfl, by decide⟩

/-- Comment remover for reading output "ignoring diagnostic comments":
drops every ` /* ... */` segment (the only comment shape the builders
emit), keeping everything else. -/
def stripCommentsAux : Bool → List Char → List Char
  | _, [] => []
  | false, ' ' :: '/' :: '*' :: rest => stripCommentsAux true rest
  | false, c :: rest => c :: stripCommentsAux false rest
  | true, '*' :: '/' :: rest => stripCommentsAux false rest
  | true, _ :: rest => stripCommentsAux true rest

/-- A statement text with its diagnostic comments removed. -/
def stripComments (s : String) : String := ⟨stripCommentsAux false s.data⟩

/-- The schema of the spec's worked example: table t with columns a, b, c
(a and b the primary key). -/
def schemaC6 : Schema := fun t => if t = "t" then .ok ["a", "b", "c"] else .error ()

/-- The spec's example input stream: Insert t(1,1,hello), Update t
rewriting c to "hello world", Insert t(3,3,goodbye world), Delete
t(5,5). -/
def opsC6 : List Op :=
  [⟨"t", SQLITE_INSERT, [],
      [some (.integer 1), some (.integer 1), some (.text "hello")], [], [true, true, false]⟩,
   ⟨"t", SQLITE_UPDATE,
      [some (.integer 1), some (.integer 1), some (.text "hello")],
      [none, none, some (.text "hello world")], [], [true, true, false]⟩,
   ⟨"t", SQLITE_INSERT, [],
      [some (.integer 3), some (.integer 3), some (.text "goodbye world")], [],
      [true, true, false]⟩,
   ⟨"t", SQLITE_DELETE,
      [some (.integer 5), some (.integer 5), some .null], [], [], [true, true, false]⟩]

/-- The text the compiler actually produces for the example stream,
diagnostic comments included. -/
def outC6 : String :=
  "INSERT INTO \"t\" (\"a\", \"b\", \"c\") VALUES (1, 1, 'hello');\n" ++
  "INSERT INTO \"t\" (\"a\", \"b\", \"c\") VALUES (3, 3, 'goodbye world');\n" ++
  "UPDATE \"t\" SET (\"c\") = ('hello world') WHERE (\"a\", \"b\") = (1, 1) /* old: ('hello') */;\n" ++
  "DELETE FROM \"t\" WHERE (\"a\", \"b\") = (5, 5) /* (\"c\") = (NULL) */;\n"

/-- The four statements exactly as C6 states them, in C6's claimed order
(Insert, Update, Insert, Delete) with no space after the commas. -/
def claimC6Text : String :=
  "INSERT INTO \"t\" (\"a\",\"b\",\"c\") VALUES (1,1,'hello');\n" ++
  "UPDATE \"t\" SET (\"c\") = ('hello world') WHERE (\"a\",\"b\") = (1,1);\n" ++
  "INSERT INTO \"t\" (\"a\",\"b\",\"c\") VALUES (3,3,'goodbye world');\n" ++
  "DELETE FROM \"t\" WHERE (\"a\",\"b\") = (5,5);\n"

/-- The comment-stripped statements the code emits: both Inserts first
(grouping reorders by kind within the table) and `", "` between list
items. -/
def actualC6Text : String :=
  "INSERT INTO \"t\" (\"a\", \"b\", \"c\") VALUES (1, 1, 'hello');\n" ++
  "INSERT INTO \"t\" (\"a\", \"b\", \"c\") VALUES (3, 3, 'goodbye world');\n" ++
  "UPDATE \"t\" SET (\"c\") = ('hello world') WHERE (\"a\", \"b\") = (1, 1);\n" ++
  "DELETE FROM \"t\" WHERE (\"a\", \"b\") = (5, 5);\n"

set_option maxRecDepth 4000 in
/-- Counterexample to C6 as stated: compiling the example stream does not
produce the four claimed statements in the claimed relative order — the
second Insert is grouped before the Update, and list items are separated
by a comma and a space. -/
theorem example_stream_not_as_claimed :
    ChangesetIterToSQL false schemaC6 opsC6 false = .ok outC6 ∧
    stripComments outC6 ≠ claimC6Text := by
  exact ⟨rfl, by decide⟩

set_option maxRecDepth 4000 in
/-- C6 (amended): compiling the example stream yields, ignoring
diagnostic comments, the four statements with both Inserts first (input
order within the Insert bucket), then the Update, then the Delete, with
`", "` separating list items. -/
theorem example_stream_compiles_grouped :
    ChangesetIterToSQL false schemaC6 opsC6 false = .ok outC6 ∧
    stripComments outC6 = actualC6Text := by
  exact ⟨rfl, by decide⟩

end Sqlc
